import Mathlib

/-!
Verification of the gst-log-viewer core (GStreamer log parser and query
engine) against its natural-language specification.

The Rust sources are shallowly embedded as executable Lean definitions:

* Rust `&str` / `String` values are embedded as `List Char` (named `Str`
  below), so that the byte-level tokenization (`split`, `splitn`, `join`,
  `trim_*_matches`) can be modelled by structurally recursive functions
  that the kernel can evaluate on concrete inputs.
* Rust machine integers (`u32`, `u64`) are embedded as `Nat`; the
  fallible `str::parse` enforces the corresponding upper bound, matching
  Rust's overflow-rejecting `FromStr`.  `gstreamer::ClockTime` is a
  newtype over nanoseconds and is embedded as a plain `Nat` nanosecond
  count (its checked arithmetic only diverges from `Nat` beyond the
  u64 range, i.e. timestamps past ~584 years, which is not modelled).
* Fallible Rust paths return `Except`/`Option`; a Rust runtime panic
  (integer division by zero) is modelled as `Option.none`.
* The external `regex` crate is treated as an oracle: filter evaluation
  is parameterized by a `compile : Str → Option (Str → Bool)` function,
  where `none` models `Regex::new` returning `Err`.
-/

deriving instance DecidableEq for Except

namespace GstLogViewer

/-- Rust strings are modelled as lists of characters. -/
abbrev Str := List Char

/-! ## Generic string helpers (models of Rust std string operations) -/

/-- One step of a Rust `Iterator::next()` over a materialized token list. -/
def next? : List Str → Option (Str × List Str)
  | [] => none
  | t :: rest => some (t, rest)

/-- Accumulator-based worker for `str::split(c)`: splits at every
occurrence of `c`, keeping empty pieces (Rust semantics). -/
def splitCharAux (c : Char) : Str → Str → List Str
  | [], acc => [acc.reverse]
  | a :: rest, acc =>
    if a = c then acc.reverse :: splitCharAux c rest []
    else splitCharAux c rest (a :: acc)

/-- Model of Rust `str::split(c)`. -/
def splitChar (c : Char) (s : Str) : List Str := splitCharAux c s []

/-- Accumulator-based worker for `str::splitn(n, c)`; the `fuel`
argument counts the splits still allowed (`n - 1` initially). -/
def splitnCharAux (c : Char) : Nat → Str → Str → List Str
  | 0, s, acc => [acc.reverse ++ s]
  | _ + 1, [], acc => [acc.reverse]
  | fuel + 1, a :: rest, acc =>
    if a = c then acc.reverse :: splitnCharAux c fuel rest []
    else splitnCharAux c (fuel + 1) rest (a :: acc)

/-- Model of Rust `str::splitn(n, c)`: at most `n` pieces, the last one
holding the untouched remainder. -/
def splitnChar (n : Nat) (c : Char) (s : Str) : List Str :=
  match n with
  | 0 => []
  | k + 1 => splitnCharAux c k s []

/-- Model of `itertools::join(it, sep)`: concatenates the items with
`sep` between consecutive items (empty items included). -/
def joinSep (sep : Str) : List Str → Str
  | [] => []
  | [x] => x
  | x :: y :: rest => x ++ sep ++ joinSep sep (y :: rest)

/-- Model of Rust `str::trim_start_matches(c)`: drops every leading `c`. -/
def trimStartMatches (c : Char) (s : Str) : Str := s.dropWhile (· = c)

/-- Model of Rust `str::trim_end_matches(c)`: drops every trailing `c`. -/
def trimEndMatches (c : Char) (s : Str) : Str :=
  (s.reverse.dropWhile (· = c)).reverse

/-- Model of Rust `str::trim` (whitespace at both ends). -/
def trimStr (s : Str) : Str :=
  ((s.dropWhile Char.isWhitespace).reverse.dropWhile Char.isWhitespace).reverse

/-- Digit run to number, most significant digit first. -/
def digitsToNat (l : Str) : Nat := l.foldl (fun a c => a * 10 + (c.toNat - 48)) 0

/-- Model of Rust `str::parse::<uN>()` with exclusive upper bound
`bound = 2^N`: an optional leading `'+'`, then one or more ASCII
digits, rejecting values `≥ bound` (Rust rejects overflow). -/
def parseUInt (bound : Nat) (s : Str) : Option Nat :=
  let digits :=
    match s with
    | '+' :: rest => rest
    | _ => s
  if digits.isEmpty then none
  else if digits.all Char.isDigit then
    let v := digitsToNat digits
    if v < bound then some v else none
  else none

/-- Rust `str::parse::<u64>()`. -/
def parseU64 : Str → Option Nat := parseUInt (2 ^ 64)

/-- Rust `str::parse::<u32>()`. -/
def parseU32 : Str → Option Nat := parseUInt (2 ^ 32)

/-! ## ANSI color stripping (src/parser/mod.rs lines 198-202)

`Regex::new("\x1b\\[[0-9;]*m")` / `replace_all(line, "")` is modelled by
a deterministic left-to-right scan: the pattern has no overlapping-match
subtleties because a match starts with ESC and its interior characters
(digits and semicolons) can never start a match. -/

/-- Scanner state: inside a potential `ESC [ [0-9;]* m` escape sequence,
`inBracket buf` holds the digit/semicolon run seen so far (reversed). -/
inductive CsiState
  | plain
  | sawEsc
  | inBracket (buf : Str)

/-- Single left-to-right pass removing every `ESC [ [0-9;]* m` sequence,
emitting the characters of any failed partial match unchanged. -/
def stripAux : CsiState → Str → Str
  | .plain, [] => []
  | .plain, c :: rest =>
    if c = '\x1b' then stripAux .sawEsc rest else c :: stripAux .plain rest
  | .sawEsc, [] => ['\x1b']
  | .sawEsc, c :: rest =>
    if c = '[' then stripAux (.inBracket []) rest
    else if c = '\x1b' then '\x1b' :: stripAux .sawEsc rest
    else '\x1b' :: c :: stripAux .plain rest
  | .inBracket buf, [] => '\x1b' :: '[' :: buf.reverse
  | .inBracket buf, c :: rest =>
    if c = 'm' then stripAux .plain rest
    else if c.isDigit || c = ';' then stripAux (.inBracket (c :: buf)) rest
    else if c = '\x1b' then ('\x1b' :: '[' :: buf.reverse) ++ stripAux .sawEsc rest
    else ('\x1b' :: '[' :: buf.reverse) ++ (c :: stripAux .plain rest)

/-- Model of the color-code stripping in `Entry::new`. -/
def stripColors (s : Str) : Str := stripAux .plain s

/-! ## Parser data types (src/parser/mod.rs lines 24-74) -/

/-- Type `TimestampField` (src/parser/mod.rs lines 25-30). -/
inductive TimestampField
  | hour
  | minute
  | second
  | subSecond
deriving DecidableEq

/-- Type `Token` (src/parser/mod.rs lines 33-44). -/
inductive Token
  | timestamp (field : Option TimestampField)
  | pid
  | thread
  | level
  | category
  | file
  | lineNumber
  | function
  | message
  | object
deriving DecidableEq

/-- Type `ParsingError` (src/parser/mod.rs lines 47-60). -/
inductive ParsingError
  | invalidDebugLevel (name : Str)
  | invalidTimestamp (ts : Str) (field : TimestampField)
  | missingToken (t : Token)
  | invalidPID (pid : Str)
  | missingLocation
  | invalidLineNumber (line : Str)
deriving DecidableEq

/-- The `gstreamer::DebugLevel` variants used by the parser. -/
inductive DebugLevel
  | error
  | warning
  | fixme
  | info
  | debug
  | log
  | trace
  | memdump
deriving DecidableEq

/-- Rust `format!("{:?}", level)` on `gstreamer::DebugLevel` (the display
name used by the level filter and by serialization). -/
def levelName : DebugLevel → Str
  | .error => "Error".data
  | .warning => "Warning".data
  | .fixme => "Fixme".data
  | .info => "Info".data
  | .debug => "Debug".data
  | .log => "Log".data
  | .trace => "Trace".data
  | .memdump => "Memdump".data

/-- Record `Entry` (src/parser/mod.rs lines 62-74); `ts` holds nanoseconds. -/
structure Entry where
  ts : Nat
  pid : Nat
  thread : Str
  level : DebugLevel
  category : Str
  file : Str
  line : Nat
  function : Str
  message : Str
  object : Option Str
deriving DecidableEq

/-! ## parse_debug_level (src/parser/mod.rs lines 76-90) -/

/-- Function `parse_debug_level`: case-sensitive match against the fixed table.
Note the source accepts `"WARN"` (the symbol GStreamer prints), not
`"WARNING"`. -/
def parse_debug_level (s : Str) : Except ParsingError DebugLevel :=
  if s = "ERROR".data then .ok .error
  else if s = "WARN".data then .ok .warning
  else if s = "FIXME".data then .ok .fixme
  else if s = "INFO".data then .ok .info
  else if s = "DEBUG".data then .ok .debug
  else if s = "LOG".data then .ok .log
  else if s = "TRACE".data then .ok .trace
  else if s = "MEMDUMP".data then .ok .memdump
  else .error (.invalidDebugLevel s)

/-- The eight level symbols accepted by `parse_debug_level`. -/
def levelNames : List Str :=
  ["ERROR".data, "WARN".data, "FIXME".data, "INFO".data,
   "DEBUG".data, "LOG".data, "TRACE".data, "MEMDUMP".data]

/-- The symbol-to-tag table realized by `parse_debug_level`. -/
def levelTable : List (Str × DebugLevel) :=
  [("ERROR".data, .error), ("WARN".data, .warning), ("FIXME".data, .fixme),
   ("INFO".data, .info), ("DEBUG".data, .debug), ("LOG".data, .log),
   ("TRACE".data, .trace), ("MEMDUMP".data, .memdump)]

/-! ## parse_time (src/parser/mod.rs lines 92-155) -/

/-- Function `parse_time`: `splitn(3, ':')`, then `splitn(2, '.')` on the third
piece; each sub-field parses as `u64`; the result is
`ClockTime::from_seconds(h*60*60 + m*60 + secs) + ClockTime::from_nseconds(subsecs)`
in nanoseconds.  The second addition, the `from_seconds` multiplication
by 10⁹ and the final addition are u64 arithmetic, which wraps modulo
2^64 in a release build; the chain of wrapping operations equals one
outer reduction modulo 2^64 of the exact composition. -/
def parse_time (ts : Str) : Except ParsingError Nat :=
  match splitnChar 3 ':' ts with
  | [] => .error (.missingToken (.timestamp (some .hour)))
  | hStr :: rest1 =>
    match parseU64 hStr with
    | none => .error (.invalidTimestamp ts .hour)
    | some h =>
      match rest1 with
      | [] => .error (.missingToken (.timestamp (some .minute)))
      | mStr :: rest2 =>
        match parseU64 mStr with
        | none => .error (.invalidTimestamp ts .minute)
        | some m =>
          match rest2 with
          | [] => .error (.missingToken (.timestamp (some .second)))
          | third :: _ =>
            match splitnChar 2 '.' third with
            | [] => .error (.missingToken (.timestamp (some .second)))
            | sStr :: rest3 =>
              match parseU64 sStr with
              | none => .error (.invalidTimestamp ts .second)
              | some secs =>
                match rest3 with
                | [] => .error (.missingToken (.timestamp (some .subSecond)))
                | subStr :: _ =>
                  match parseU64 subStr with
                  | none => .error (.invalidTimestamp ts .subSecond)
                  | some subsecs =>
                    .ok (((h * 60 * 60 + m * 60 + secs) * 1000000000 + subsecs)
                      % (2 ^ 64))

/-! ## split_location (src/parser/mod.rs lines 157-194) -/

/-- Function `split_location`: `splitn(4, ':')` into file, line, function and
object; a non-empty object segment is stored with every leading `'<'`
and trailing `'>'` stripped, an empty one as `none`. -/
def split_location (location : Str) : Except ParsingError (Str × Nat × Str × Option Str) :=
  match next? (splitnChar 4 ':' location) with
  | none => .error (.missingToken .file)
  | some (file, parts1) =>
    match next? parts1 with
    | none => .error (.missingToken .lineNumber)
    | some (lineStr, parts2) =>
      match parseU32 lineStr with
      | none => .error (.invalidLineNumber lineStr)
      | some line =>
        match next? parts2 with
        | none => .error (.missingToken .function)
        | some (function, parts3) =>
          match next? parts3 with
          | none => .error (.missingToken .object)
          | some (object, _) =>
            let objectName :=
              if ¬ object.isEmpty then
                some (trimEndMatches '>' (trimStartMatches '<' object))
              else none
            .ok (file, line, function, objectName)

/-! ## Entry::new (src/parser/mod.rs lines 196-253) -/

/-- The token-consuming body of `Entry::new`, applied to the result of
`line.split(' ')`: between structured fields the iterator is wrapped in
`skip_while(|x| x.is_empty())`; the message is the join of everything
after the location token (empty tokens included). -/
def parseFields (toks : List Str) : Except ParsingError Entry :=
  match next? toks with
  | none => .error (.missingToken (.timestamp none))
  | some (ts_str, it1) =>
    match parse_time ts_str with
    | .error e => .error e
    | .ok ts =>
      match next? (it1.dropWhile List.isEmpty) with
      | none => .error (.missingToken .pid)
      | some (pid_str, it3) =>
        match parseU32 pid_str with
        | none => .error (.invalidPID pid_str)
        | some pid =>
          match next? (it3.dropWhile List.isEmpty) with
          | none => .error (.missingToken .thread)
          | some (thread, it5) =>
            match next? (it5.dropWhile List.isEmpty) with
            | none => .error (.missingToken .level)
            | some (level_str, it7) =>
              match parse_debug_level level_str with
              | .error e => .error e
              | .ok level =>
                match next? (it7.dropWhile List.isEmpty) with
                | none => .error (.missingToken .category)
                | some (category, it9) =>
                  match next? (it9.dropWhile List.isEmpty) with
                  | none => .error .missingLocation
                  | some (location_str, it11) =>
                    match split_location location_str with
                    | .error e => .error e
                    | .ok (file, lineNo, function, object) =>
                      .ok { ts := ts, pid := pid, thread := thread,
                            level := level, category := category,
                            file := file, line := lineNo,
                            function := function,
                            message := joinSep [' '] it11,
                            object := object }

/-- Constructor `Entry::new`: strip color codes, split on single spaces, consume the
structured fields, keep the rest as the message. -/
def Entry.new (line : Str) : Except ParsingError Entry :=
  parseFields (splitChar ' ' (stripColors line))

/-! ## Query engine data types (src/models/mod.rs) -/

/-- Type `ApiError` (src/models/mod.rs lines 21-24); the HTTP status code is
embedded as its numeric value (400 `BAD_REQUEST`, 404 `NOT_FOUND`). -/
structure ApiError where
  status : Nat
  message : Str
deriving DecidableEq

/-- Type `LogFilter` (src/models/mod.rs lines 49-70); serde defaults are
`page = 1`, `per_page = 100`, `use_microseconds = false`. -/
structure LogFilter where
  session_id : Str
  level : Option Str := none
  categories : List Str := []
  message_regex : Option Str := none
  pid : Option Nat := none
  thread : Option Str := none
  object : Option Str := none
  function_regex : Option Str := none
  page : Nat := 1
  per_page : Nat := 100
  min_timestamp : Option Nat := none
  max_timestamp : Option Nat := none
  use_microseconds : Bool := false

/-- Type `LogResponse` (src/models/mod.rs lines 82-87), with entries kept as
parsed `Entry` values (serialization is out of scope). -/
structure LogResponse where
  entries : List Entry
  total : Nat
  page : Nat
  total_pages : Nat
deriving DecidableEq

/-- Type `FilterOptionsResponse` (src/models/mod.rs lines 91-97).  The Rust
code materializes `HashSet`s in arbitrary iteration order; the model
picks first-occurrence order (`List.dedup` keeps first occurrences). -/
structure FilterOptionsResponse where
  categories : List Str
  levels : List Str
  pids : List Nat
  threads : List Str
  objects : List Str
deriving DecidableEq

/-- The session store `HashMap<String, Vec<Entry>>` is modelled as an
association list with at most one binding per key; `storeGet` is
`HashMap::get`. -/
def storeGet (store : List (Str × List Entry)) (sid : Str) : Option (List Entry) :=
  match store with
  | [] => none
  | (k, v) :: rest => if k = sid then some v else storeGet rest sid

/-- The abstract interface of `regex::Regex`: compiling a pattern either
yields a total matcher over strings or fails (`Regex::new` returned
`Err`). -/
abbrev RegexCompiler := Str → Option (Str → Bool)

/-! ## Filtering (src/handlers/query.rs lines 87-243; the predicate in
src/handlers/timeline.rs lines 134-205 is a verbatim copy of the
non-time-range criteria, per its comment "Apply the same filtering
logic as in query.rs") -/

/-- Helpers `to_microseconds` / `to_milliseconds` applied to an entry's
timestamp, selected by the `use_microseconds` flag
(src/handlers/query.rs lines 13-22, 101-105). -/
def timestampInUnit (useUs : Bool) (e : Entry) : Nat :=
  if useUs then e.ts / 1000 else e.ts / 1000000

/-- The time-range predicate of `get_logs`
(src/handlers/query.rs lines 99-132): inclusive bounds in the selected
unit. -/
def timeRangeMatches (f : LogFilter) (e : Entry) : Bool :=
  let timestamp := timestampInUnit f.use_microseconds e
  (match f.min_timestamp with
   | some minTs => decide (minTs ≤ timestamp)
   | none => true) &&
  (match f.max_timestamp with
   | some maxTs => decide (timestamp ≤ maxTs)
   | none => true)

/-- Stage 1 of `get_logs`: the time-range filter runs only when at
least one bound is present (src/handlers/query.rs lines 96-136). -/
def timeRangeFilter (f : LogFilter) (l : List Entry) : List Entry :=
  if f.min_timestamp.isSome || f.max_timestamp.isSome then
    l.filter (timeRangeMatches f)
  else l

/-- The per-entry conjunctive criteria predicate
(src/handlers/query.rs lines 142-241).  A regex criterion whose pattern
fails to compile imposes no restriction (the `if let Ok(regex)` has no
rejecting else-branch). -/
def entryMatches (compile : RegexCompiler) (f : LogFilter) (e : Entry) : Bool :=
  (match f.level with
   | some lv => levelName e.level = lv
   | none => true) &&
  (f.categories.isEmpty ||
     f.categories.any (fun cat =>
       cat = e.category || cat = e.category || trimStr cat = trimStr e.category)) &&
  (match f.message_regex with
   | some pat =>
     match compile pat with
     | some regex => regex e.message
     | none => true
   | none => true) &&
  (match f.pid with
   | some pid => e.pid = pid
   | none => true) &&
  (match f.thread with
   | some thread => e.thread = thread
   | none => true) &&
  (match f.object with
   | some object =>
     match e.object with
     | some entryObject => entryObject = object
     | none => false
   | none => true) &&
  (match f.function_regex with
   | some pat =>
     match compile pat with
     | some regex => regex e.function
     | none => true
   | none => true)

/-- The full filter pipeline of `get_logs`: time-range stage then the
criteria stage, preserving order. -/
def filterEntries (compile : RegexCompiler) (f : LogFilter) (l : List Entry) : List Entry :=
  (timeRangeFilter f l).filter (entryMatches compile f)

/-! ## Pagination (src/handlers/query.rs lines 252-282) -/

/-- The pagination tail of `get_logs`: clamp `page` from below at 1 and
`per_page` from above at 1000, then slice.  `none` models the Rust
panic `(total + per_page - 1) / per_page` reaches when the clamped
`per_page` is 0 (integer division by zero panics in every build
profile).  The `(page - 1) * per_page` multiplication, the
`start + per_page` addition and the `end - start` subtraction are
usize operations, wrapping modulo 2^64 in a release build (the
wrapping subtraction is written `stop + 2^64 - start` reduced modulo
2^64, both operands being below 2^64).  `total` is the length of a
materialized `Vec`, which cannot exceed `isize::MAX`, so the
`total + per_page - 1` numerator cannot wrap in any reachable state
and is left exact. -/
def paginate (filtered : List Entry) (page0 per_page0 : Nat) :
    Option (List Entry × Nat × Nat × Nat) :=
  let page := max page0 1
  let per_page := min per_page0 1000
  let total := filtered.length
  if per_page = 0 then none
  else
    let total_pages := (total + per_page - 1) / per_page
    let start := ((page - 1) * per_page) % (2 ^ 64)
    let stop := min ((start + per_page) % (2 ^ 64)) total
    some (((filtered.drop start).take ((stop + 2 ^ 64 - start) % (2 ^ 64))),
      total, page, total_pages)

/-- Handler `get_logs` (src/handlers/query.rs lines 25-283), after query-string
deserialization: look up the session, filter, paginate.  The outer
`Option` models a panic inside pagination; `Except` carries the
`ApiError` responses. -/
def get_logs (compile : RegexCompiler) (store : List (Str × List Entry))
    (f : LogFilter) : Option (Except ApiError LogResponse) :=
  match storeGet store f.session_id with
  | none =>
    some (.error ⟨404, "Session not found: ".data ++ f.session_id⟩)
  | some entries =>
    match paginate (filterEntries compile f entries) f.page f.per_page with
    | none => none
    | some (es, total, page, total_pages) =>
      some (.ok { entries := es, total := total, page := page,
                  total_pages := total_pages })

/-! ## Timeline aggregation (src/handlers/timeline.rs) -/

/-- The unit/suffix recognition of the interval grammar
`^(\d+)(us|ms|s|m)$` (src/handlers/timeline.rs line 53): matched
against the string's tail, longest alternatives first, returning the
value part and the microsecond multiplier for the unit. -/
def intervalUnit? (interval : Str) : Option (Str × Nat) :=
  match interval.reverse with
  | [] => none
  | c1 :: tail =>
    if c1 = 's' then
      match tail with
      | [] => some (([] : Str), 1000000)
      | c2 :: r =>
        if c2 = 'u' then some (r.reverse, 1)
        else if c2 = 'm' then some (r.reverse, 1000)
        else some ((c2 :: r).reverse, 1000000)
    else if c1 = 'm' then some (tail.reverse, 60000000)
    else none

/-- Function `parse_interval` (src/handlers/timeline.rs lines 52-84): validate
against the grammar, parse the numeric part as `u64`, normalize to
microseconds.  The normalization `value * 1_000` / `* 1_000_000` /
`* 60_000_000` is u64 multiplication, which wraps modulo 2^64 in a
release build.  (`\d` is modelled as the ASCII digits; non-ASCII
Unicode digits would parse-fail into the same 400 response.) -/
def parse_interval (interval : Str) : Except ApiError Nat :=
  match intervalUnit? interval with
  | none =>
    .error ⟨400, "Invalid interval format: ".data ++ interval⟩
  | some (valuePart, mult) =>
    if ¬ valuePart.isEmpty ∧ valuePart.all Char.isDigit then
      match parseU64 valuePart with
      | some v => .ok ((v * mult) % (2 ^ 64))
      | none => .error ⟨400, "Invalid interval value: ".data ++ interval⟩
    else
      .error ⟨400, "Invalid interval format: ".data ++ interval⟩

/-- The check `filter.interval.ends_with("us")` (src/handlers/timeline.rs
line 211): the last two characters are `'u'`, `'s'`. -/
def ends_with_us (interval : Str) : Bool :=
  decide (interval.reverse.take 2 = ['s', 'u'])

/-- Minimum observed timestamp in the selected unit, 0 when the
filtered set is empty (src/handlers/timeline.rs lines 214-242). -/
def minTimestamp (u : Bool) (l : List Entry) : Nat :=
  ((l.map (timestampInUnit u)).min?).getD 0

/-- Maximum observed timestamp in the selected unit, 0 when the
filtered set is empty (src/handlers/timeline.rs lines 214-242). -/
def maxTimestamp (u : Bool) (l : List Entry) : Nat :=
  ((l.map (timestampInUnit u)).max?).getD 0

/-- The bucket width used by the grouping loop, in the selected unit:
`interval_us` on the microsecond path, `interval_us / 1000` on the
millisecond path (src/handlers/timeline.rs lines 248-256). -/
def bucketDivisor (u : Bool) (interval_us : Nat) : Nat :=
  if u then interval_us else interval_us / 1000

/-- The `bucket_time` computation for one entry (src/handlers/timeline.rs lines
248-256): `((ts - min) / width) * width + min` in the selected unit. -/
def bucketTime (u : Bool) (interval_us minT : Nat) (e : Entry) : Nat :=
  ((timestampInUnit u e - minT) / bucketDivisor u interval_us) * bucketDivisor u interval_us
    + minT

/-- The grouping-and-sorting tail of `get_timeline`
(src/handlers/timeline.rs lines 244-268): count entries per bucket in a
`HashMap`, then emit the `(bucket_start, count)` pairs sorted ascending
by bucket start.  `none` models the division-by-zero panic the Rust
loop hits on its first entry when the bucket width is 0; since bucket
keys are distinct, sorting by key determines the output uniquely and is
modelled by an insertion sort over the deduplicated key list. -/
def timelineBuckets (u : Bool) (interval_us : Nat) (l : List Entry) :
    Option (List (Nat × Nat)) :=
  if ¬ l.isEmpty ∧ bucketDivisor u interval_us = 0 then none
  else
    let minT := minTimestamp u l
    let times := l.map (bucketTime u interval_us minT)
    some ((List.insertionSort (· ≤ ·) times.dedup).map (fun k => (k, times.count k)))

/-! ## Filter options (src/handlers/options.rs lines 13-90) -/

/-- Handler `get_filter_options`: absent session yields 404; a present session
with an empty entry list also yields 404; otherwise the deduplicated
per-field value lists. -/
def get_filter_options (store : List (Str × List Entry)) (sid : Str) :
    Except ApiError FilterOptionsResponse :=
  match storeGet store sid with
  | none =>
    .error ⟨404, "Session not found: ".data ++ sid ++
      ". This may occur if the log file is still being processed or if parsing failed.".data⟩
  | some entries =>
    if entries.isEmpty then
      .error ⟨404, "No log entries found for session: ".data ++ sid ++
        ". The log file may be empty or in an incorrect format.".data⟩
    else
      .ok { categories := (entries.map Entry.category).dedup,
            levels := (entries.map (fun e => levelName e.level)).dedup,
            pids := (entries.map Entry.pid).dedup,
            threads := (entries.map Entry.thread).dedup,
            objects := (entries.filterMap Entry.object).dedup }

/-- The HTTP status of a handler result, `none` on success. -/
def apiStatus {α : Type} : Except ApiError α → Option Nat
  | .error e => some e.status
  | .ok _ => none

/-! ## Supporting lemmas: splitting and joining -/

theorem next?_some {l : List Str} {a : Str} {r : List Str}
    (h : next? l = some (a, r)) : l = a :: r := by
  cases l with
  | nil => simp [next?] at h
  | cons x xs =>
    simp only [next?, Option.some.injEq, Prod.mk.injEq] at h
    rw [h.1, h.2]

theorem splitnCharAux_zero (c : Char) (s acc : Str) :
    splitnCharAux c 0 s acc = [acc.reverse ++ s] := by
  cases s <;> rfl

theorem splitnCharAux_pre (c : Char) (fuel : Nat) (pre rest acc : Str)
    (hpre : c ∉ pre) :
    splitnCharAux c (fuel + 1) (pre ++ c :: rest) acc
      = (acc.reverse ++ pre) :: splitnCharAux c fuel rest [] := by
  induction pre generalizing acc with
  | nil => simp [splitnCharAux]
  | cons a p ih =>
    have hac : ¬ a = c := fun h => hpre (h ▸ List.mem_cons_self a p)
    simp only [List.cons_append, splitnCharAux, if_neg hac, List.append_eq]
    rw [ih (a :: acc) (fun hm => hpre (List.mem_cons_of_mem _ hm))]
    simp

theorem splitnChar_two (c : Char) (a b : Str) (ha : c ∉ a) :
    splitnChar 2 c (a ++ c :: b) = [a, b] := by
  have e0 : splitnChar 2 c (a ++ c :: b) = splitnCharAux c (0 + 1) (a ++ c :: b) [] := rfl
  rw [e0, splitnCharAux_pre c 0 a b [] ha, splitnCharAux_zero]
  simp

theorem splitnChar_three (c : Char) (a b d : Str) (ha : c ∉ a) (hb : c ∉ b) :
    splitnChar 3 c (a ++ c :: (b ++ c :: d)) = [a, b, d] := by
  have e0 : splitnChar 3 c (a ++ c :: (b ++ c :: d))
      = splitnCharAux c (1 + 1) (a ++ c :: (b ++ c :: d)) [] := rfl
  have e1 : (1 : Nat) = 0 + 1 := rfl
  rw [e0, splitnCharAux_pre c 1 a _ [] ha, e1,
    splitnCharAux_pre c 0 b d [] hb, splitnCharAux_zero]
  simp

theorem splitnChar_four (c : Char) (a b d e : Str)
    (ha : c ∉ a) (hb : c ∉ b) (hd : c ∉ d) :
    splitnChar 4 c (a ++ c :: (b ++ c :: (d ++ c :: e))) = [a, b, d, e] := by
  have e0 : splitnChar 4 c (a ++ c :: (b ++ c :: (d ++ c :: e)))
      = splitnCharAux c (2 + 1) (a ++ c :: (b ++ c :: (d ++ c :: e))) [] := rfl
  have e2 : (2 : Nat) = 1 + 1 := rfl
  have e1 : (1 : Nat) = 0 + 1 := rfl
  rw [e0, splitnCharAux_pre c 2 a _ [] ha, e2,
    splitnCharAux_pre c 1 b _ [] hb, e1,
    splitnCharAux_pre c 0 d e [] hd, splitnCharAux_zero]
  simp

theorem splitCharAux_ne_nil (c : Char) (s acc : Str) :
    splitCharAux c s acc ≠ [] := by
  induction s generalizing acc with
  | nil => simp [splitCharAux]
  | cons a rest ih =>
    by_cases hac : a = c
    · simp [splitCharAux, if_pos hac]
    · simpa [splitCharAux, if_neg hac] using ih (a :: acc)

theorem joinSep_cons_of_ne_nil (sep x : Str) (l : List Str) (h : l ≠ []) :
    joinSep sep (x :: l) = x ++ sep ++ joinSep sep l := by
  cases l with
  | nil => exact absurd rfl h
  | cons y rest => rfl

theorem joinSep_splitCharAux (c : Char) (s acc : Str) :
    joinSep [c] (splitCharAux c s acc) = acc.reverse ++ s := by
  induction s generalizing acc with
  | nil => simp [splitCharAux, joinSep]
  | cons a rest ih =>
    by_cases hac : a = c
    · subst hac
      simp only [splitCharAux, eq_self_iff_true, if_true]
      rw [joinSep_cons_of_ne_nil _ _ _ (splitCharAux_ne_nil a rest []), ih []]
      simp
    · simp only [splitCharAux, if_neg hac]
      rw [ih (a :: acc)]
      simp

/-- Splitting on a character and rejoining with it is the identity:
the `split(' ')` / `join(it, " ")` round trip in `Entry::new`
reconstructs the original text byte-exactly, empty tokens included. -/
theorem joinSep_splitChar (c : Char) (s : Str) :
    joinSep [c] (splitChar c s) = s := by
  simpa using joinSep_splitCharAux c s []

theorem joinSep_append (sep : Str) (l₁ l₂ : List Str)
    (h₁ : l₁ ≠ []) (h₂ : l₂ ≠ []) :
    joinSep sep (l₁ ++ l₂) = joinSep sep l₁ ++ sep ++ joinSep sep l₂ := by
  induction l₁ with
  | nil => exact absurd rfl h₁
  | cons x rest ih =>
    cases rest with
    | nil =>
      rw [List.singleton_append, joinSep_cons_of_ne_nil _ _ _ h₂]
      rfl
    | cons y r2 =>
      rw [List.cons_append, joinSep_cons_of_ne_nil _ _ _ (by simp),
        joinSep_cons_of_ne_nil _ _ _ (by simp), ih (by simp)]
      simp

/-- Structure of any successful `parseFields` run: the input token list
splits into a non-empty consumed prefix and the message tokens, and the
stored message is exactly the message tokens rejoined with single
spaces (empty tokens included). -/
theorem parseFields_shape (toks : List Str) (e : Entry)
    (h : parseFields toks = .ok e) :
    ∃ pre rest, pre ≠ [] ∧ toks = pre ++ rest ∧ e.message = joinSep [' '] rest := by
  unfold parseFields at h
  split at h
  · exact Except.noConfusion h
  · rename_i ts_str it1 heq1
    split at h
    · exact Except.noConfusion h
    · rename_i ts heqt
      split at h
      · exact Except.noConfusion h
      · rename_i pid_str it3 heq2
        split at h
        · exact Except.noConfusion h
        · rename_i pid heqp
          split at h
          · exact Except.noConfusion h
          · rename_i thread it5 heq3
            split at h
            · exact Except.noConfusion h
            · rename_i level_str it7 heq4
              split at h
              · exact Except.noConfusion h
              · rename_i level heql
                split at h
                · exact Except.noConfusion h
                · rename_i category it9 heq5
                  split at h
                  · exact Except.noConfusion h
                  · rename_i location_str it11 heq6
                    split at h
                    · exact Except.noConfusion h
                    · rename_i file lineNo function object heqs
                      injection h with h'
                      subst h'
                      have d1 : toks = ts_str :: it1 := next?_some heq1
                      obtain ⟨tw1, d2⟩ : ∃ t, it1 = t ++ (pid_str :: it3) := by
                        refine ⟨it1.takeWhile List.isEmpty, ?_⟩
                        conv_lhs => rw [← List.takeWhile_append_dropWhile
                          (p := List.isEmpty) (l := it1)]
                        rw [next?_some heq2]
                      obtain ⟨tw2, d3⟩ : ∃ t, it3 = t ++ (thread :: it5) := by
                        refine ⟨it3.takeWhile List.isEmpty, ?_⟩
                        conv_lhs => rw [← List.takeWhile_append_dropWhile
                          (p := List.isEmpty) (l := it3)]
                        rw [next?_some heq3]
                      obtain ⟨tw3, d4⟩ : ∃ t, it5 = t ++ (level_str :: it7) := by
                        refine ⟨it5.takeWhile List.isEmpty, ?_⟩
                        conv_lhs => rw [← List.takeWhile_append_dropWhile
                          (p := List.isEmpty) (l := it5)]
                        rw [next?_some heq4]
                      obtain ⟨tw4, d5⟩ : ∃ t, it7 = t ++ (category :: it9) := by
                        refine ⟨it7.takeWhile List.isEmpty, ?_⟩
                        conv_lhs => rw [← List.takeWhile_append_dropWhile
                          (p := List.isEmpty) (l := it7)]
                        rw [next?_some heq5]
                      obtain ⟨tw5, d6⟩ : ∃ t, it9 = t ++ (location_str :: it11) := by
                        refine ⟨it9.takeWhile List.isEmpty, ?_⟩
                        conv_lhs => rw [← List.takeWhile_append_dropWhile
                          (p := List.isEmpty) (l := it9)]
                        rw [next?_some heq6]
                      refine ⟨ts_str :: (tw1 ++ pid_str :: (tw2 ++ thread ::
                        (tw3 ++ level_str :: (tw4 ++ category ::
                          (tw5 ++ [location_str]))))), it11, by simp, ?_, rfl⟩
                      rw [d1, d2, d3, d4, d5, d6]
                      simp [List.append_assoc]

/-! ## Claim C1 — the debug-level table -/

/-- C1, amended: `parse_debug_level` succeeds exactly on the eight
symbols ERROR, WARN, FIXME, INFO, DEBUG, LOG, TRACE, MEMDUMP (the
source accepts `WARN`, not `WARNING`), compared case-sensitively,
mapping each symbol to its tag per `levelTable`; every other string
yields `InvalidDebugLevel` carrying that string. -/
theorem C1_level_table (s : Str) :
    (s ∈ levelNames → ∃ l, parse_debug_level s = .ok l ∧ (s, l) ∈ levelTable) ∧
    (s ∉ levelNames → parse_debug_level s = .error (.invalidDebugLevel s)) := by
  by_cases h1 : s = "ERROR".data
  · subst h1
    exact ⟨fun _ => ⟨.error, by decide, by decide⟩, fun hn => absurd (by decide) hn⟩
  by_cases h2 : s = "WARN".data
  · subst h2
    exact ⟨fun _ => ⟨.warning, by decide, by decide⟩, fun hn => absurd (by decide) hn⟩
  by_cases h3 : s = "FIXME".data
  · subst h3
    exact ⟨fun _ => ⟨.fixme, by decide, by decide⟩, fun hn => absurd (by decide) hn⟩
  by_cases h4 : s = "INFO".data
  · subst h4
    exact ⟨fun _ => ⟨.info, by decide, by decide⟩, fun hn => absurd (by decide) hn⟩
  by_cases h5 : s = "DEBUG".data
  · subst h5
    exact ⟨fun _ => ⟨.debug, by decide, by decide⟩, fun hn => absurd (by decide) hn⟩
  by_cases h6 : s = "LOG".data
  · subst h6
    exact ⟨fun _ => ⟨.log, by decide, by decide⟩, fun hn => absurd (by decide) hn⟩
  by_cases h7 : s = "TRACE".data
  · subst h7
    exact ⟨fun _ => ⟨.trace, by decide, by decide⟩, fun hn => absurd (by decide) hn⟩
  by_cases h8 : s = "MEMDUMP".data
  · subst h8
    exact ⟨fun _ => ⟨.memdump, by decide, by decide⟩, fun hn => absurd (by decide) hn⟩
  refine ⟨fun hs => ?_, fun _ => ?_⟩
  · exfalso
    simp only [levelNames, List.mem_cons, List.not_mem_nil, or_false] at hs
    rcases hs with rfl | rfl | rfl | rfl | rfl | rfl | rfl | rfl <;> simp_all
  · unfold parse_debug_level
    rw [if_neg h1, if_neg h2, if_neg h3, if_neg h4, if_neg h5, if_neg h6,
      if_neg h7, if_neg h8]

/-- C1, counterexample to the claim as stated: the claimed symbol
`WARNING` is rejected by the parser (which accepts `WARN` instead). -/
theorem C1_counterexample :
    parse_debug_level "WARNING".data
        = .error (.invalidDebugLevel "WARNING".data) ∧
    parse_debug_level "WARN".data = .ok .warning := by decide

/-- C1, witness: a string outside the table is rejected carrying the
string itself. -/
theorem C1_witness :
    parse_debug_level "warn".data = .error (.invalidDebugLevel "warn".data) :=
  (C1_level_table "warn".data).2 (by decide)

/-! ## Claim C5 — the stored message -/

/-- C5, amended: for every line the tokenizer accepts, the stored
message is the tokens remaining after the location field rejoined with
single spaces, where the token list keeps the empty tokens that
`split(' ')` produces inside the message; consequently the message is
a byte-exact suffix of the (color-stripped) line — internal runs of
multiple spaces are preserved, not collapsed. -/
theorem C5_message_exact (line : Str) (e : Entry)
    (h : Entry.new line = .ok e) :
    (∃ pre rest, pre ≠ [] ∧ splitChar ' ' (stripColors line) = pre ++ rest ∧
        e.message = joinSep [' '] rest) ∧
    (e.message = [] ∨ ∃ p, stripColors line = p ++ ' ' :: e.message) := by
  obtain ⟨pre, rest, hpre, hsplit, hmsg⟩ := parseFields_shape _ _ h
  refine ⟨⟨pre, rest, hpre, hsplit, hmsg⟩, ?_⟩
  cases rest with
  | nil => left; simpa [joinSep] using hmsg
  | cons r0 rs =>
    right
    refine ⟨joinSep [' '] pre, ?_⟩
    have hid : stripColors line = joinSep [' '] (splitChar ' ' (stripColors line)) :=
      (joinSep_splitChar ' ' (stripColors line)).symm
    rw [hid, hsplit, joinSep_append [' '] pre (r0 :: rs) hpre (by simp), hmsg]
    simp

/-- C5, counterexample to the claim as stated: a double space inside
the message survives into the stored message — it is not collapsed to
a single space. -/
theorem C5_counterexample :
    (Entry.new ("0:00:00.000000001 1 t DEBUG cat f:1:fn: a  b".data)).map
        Entry.message = .ok "a  b".data ∧
    "a  b".data ≠ "a b".data := by decide

/-- Concrete line used by the C5 witness (double space in the message). -/
def sampleLine : Str := "0:00:00.000000001 1 t DEBUG cat f:1:fn: a  b".data

/-- The entry `sampleLine` parses to. -/
def sampleEntry : Entry :=
  { ts := 1, pid := 1, thread := "t".data, level := .debug,
    category := "cat".data, file := "f".data, line := 1,
    function := "fn".data, message := "a  b".data, object := none }

/-- C5, witness: the amended statement at a concrete accepted line. -/
theorem C5_witness :
    (∃ pre rest, pre ≠ [] ∧ splitChar ' ' (stripColors sampleLine) = pre ++ rest ∧
        sampleEntry.message = joinSep [' '] rest) ∧
    (sampleEntry.message = [] ∨ ∃ p, stripColors sampleLine = p ++ ' ' :: sampleEntry.message) :=
  C5_message_exact sampleLine sampleEntry (by decide)

/-! ## Claim C6 — the object segment -/

/-- C6, amended: for a location token `file:line:function:object` whose
first three segments are colon-free and whose line number parses as
`u32`, the parsed object is `some name` exactly when the fourth segment
is non-empty — whether or not it is a `⟨...⟩`-bracketed token — with
`name` the segment stripped of all leading `'<'` and trailing `'>'`
characters; an empty fourth segment yields `none`. -/
theorem C6_object_rule (f lS fn ob : Str) (n : Nat)
    (hf : ':' ∉ f) (hl : ':' ∉ lS) (hfn : ':' ∉ fn)
    (hn : parseU32 lS = some n) :
    split_location (f ++ ':' :: (lS ++ ':' :: (fn ++ ':' :: ob)))
      = .ok (f, n, fn,
          if ob.isEmpty then none
          else some (trimEndMatches '>' (trimStartMatches '<' ob))) := by
  unfold split_location
  rw [splitnChar_four ':' f lS fn ob hf hl hfn]
  simp only [next?, hn]
  by_cases hob : ob.isEmpty <;> simp [hob]

/-- C6, counterexample to the claim as stated: a non-empty fourth
segment that is not a bracketed `⟨...⟩` token still yields
`Some(name)`. -/
theorem C6_counterexample :
    (Entry.new ("0:00:00.000000000 1 t DEBUG cat f.c:1:fn:obj m".data)).map
        Entry.object = .ok (some "obj".data) ∧
    splitnChar 4 ':' "f.c:1:fn:obj".data
        = ["f.c".data, "1".data, "fn".data, "obj".data] ∧
    "obj".data.head? ≠ some '<' := by decide

/-- C6, witness: the amended rule at a concrete bracketed location. -/
theorem C6_witness :
    split_location ("f.c".data ++ ':' :: ("42".data ++ ':' ::
        ("do_thing".data ++ ':' :: "<dec0>".data)))
      = .ok ("f.c".data, 42, "do_thing".data, some "dec0".data) := by
  rw [C6_object_rule "f.c".data "42".data "do_thing".data "<dec0>".data 42
    (by decide) (by decide) (by decide) (by decide)]
  decide

/-! ## Claim C2 — the timestamp grammar -/

/-- C2, amended: for a timestamp `H:MM:SS.fffffffff` — hour and minute
parts colon-free, second part dot-free — if all four sub-fields parse
as `u64` the parser succeeds and stores
`((h*3600 + m*60 + s) * 1_000_000_000 + sub) mod 2^64` nanoseconds
(the composition is u64 arithmetic and wraps in a release build), which
equals the exact composition `(h*3600 + m*60 + s)*10⁹ + sub` whenever
that value fits in u64; if a present sub-field fails to parse (the
earlier ones succeeding), the parser returns `InvalidTimestamp` naming
that sub-field and carrying the raw timestamp text. -/
theorem C2_parse_time (hS mS sS subS : Str)
    (hc1 : ':' ∉ hS) (hc2 : ':' ∉ mS) (hd : '.' ∉ sS) :
    (∀ h m s sub, parseU64 hS = some h → parseU64 mS = some m →
        parseU64 sS = some s → parseU64 subS = some sub →
        parse_time (hS ++ ':' :: (mS ++ ':' :: (sS ++ '.' :: subS)))
          = .ok (((h * 3600 + m * 60 + s) * 1000000000 + sub) % (2 ^ 64))) ∧
    (∀ h m s sub, parseU64 hS = some h → parseU64 mS = some m →
        parseU64 sS = some s → parseU64 subS = some sub →
        (h * 3600 + m * 60 + s) * 1000000000 + sub < 2 ^ 64 →
        parse_time (hS ++ ':' :: (mS ++ ':' :: (sS ++ '.' :: subS)))
          = .ok ((h * 3600 + m * 60 + s) * 1000000000 + sub)) ∧
    (parseU64 hS = none →
        parse_time (hS ++ ':' :: (mS ++ ':' :: (sS ++ '.' :: subS)))
          = .error (.invalidTimestamp
              (hS ++ ':' :: (mS ++ ':' :: (sS ++ '.' :: subS))) .hour)) ∧
    (∀ h, parseU64 hS = some h → parseU64 mS = none →
        parse_time (hS ++ ':' :: (mS ++ ':' :: (sS ++ '.' :: subS)))
          = .error (.invalidTimestamp
              (hS ++ ':' :: (mS ++ ':' :: (sS ++ '.' :: subS))) .minute)) ∧
    (∀ h m, parseU64 hS = some h → parseU64 mS = some m →
        parseU64 sS = none →
        parse_time (hS ++ ':' :: (mS ++ ':' :: (sS ++ '.' :: subS)))
          = .error (.invalidTimestamp
              (hS ++ ':' :: (mS ++ ':' :: (sS ++ '.' :: subS))) .second)) ∧
    (∀ h m s, parseU64 hS = some h → parseU64 mS = some m →
        parseU64 sS = some s → parseU64 subS = none →
        parse_time (hS ++ ':' :: (mS ++ ':' :: (sS ++ '.' :: subS)))
          = .error (.invalidTimestamp
              (hS ++ ':' :: (mS ++ ':' :: (sS ++ '.' :: subS))) .subSecond)) := by
  have hsplit : splitnChar 3 ':' (hS ++ ':' :: (mS ++ ':' :: (sS ++ '.' :: subS)))
      = [hS, mS, sS ++ '.' :: subS] := splitnChar_three ':' hS mS _ hc1 hc2
  have hdot : splitnChar 2 '.' (sS ++ '.' :: subS) = [sS, subS] :=
    splitnChar_two '.' sS subS hd
  refine ⟨?_, ?_, ?_, ?_, ?_, ?_⟩
  · intro h m s sub hh hm hs hsub
    unfold parse_time
    rw [hsplit]
    simp only [hh, hm, hdot, hs, hsub]
    rw [Nat.mul_assoc]
  · intro h m s sub hh hm hs hsub hlt
    unfold parse_time
    rw [hsplit]
    simp only [hh, hm, hdot, hs, hsub]
    rw [Nat.mul_assoc]
    show Except.ok (((h * 3600 + m * 60 + s) * 1000000000 + sub) % (2 ^ 64))
        = Except.ok ((h * 3600 + m * 60 + s) * 1000000000 + sub)
    rw [Nat.mod_eq_of_lt hlt]
  · intro hh
    unfold parse_time
    rw [hsplit]
    simp only [hh]
  · intro h hh hm
    unfold parse_time
    rw [hsplit]
    simp only [hh, hm]
  · intro h m hh hm hs
    unfold parse_time
    rw [hsplit]
    simp only [hh, hm, hdot, hs]
  · intro h m s hh hm hs hsub
    unfold parse_time
    rw [hsplit]
    simp only [hh, hm, hdot, hs, hsub]

/-- C2, counterexample to the claim as stated: with the parseable hour
2^63, the u64 composition wraps — `2^63·3600·10⁹ ≡ 0 (mod 2^64)` — so
the stored timestamp is 5 ns, not the claimed exact composition. -/
theorem C2_counterexample :
    parse_time "9223372036854775808:00:00.000000005".data = .ok 5 ∧
    (5 : Nat) ≠ (9223372036854775808 * 3600 + 0 * 60 + 0) * 1000000000 + 5 := by
  decide

/-- C2, witness: the success case (wrap-free) at a concrete timestamp. -/
theorem C2_witness :
    parse_time ("0".data ++ ':' :: ("00".data ++ ':' ::
        ("02".data ++ '.' :: "123456789".data))) = .ok 2123456789 :=
  (C2_parse_time "0".data "00".data "02".data "123456789".data
      (by decide) (by decide) (by decide)).2.1 0 0 2 123456789
    (by decide) (by decide) (by decide) (by decide) (by decide)

/-! ## Claims C4 and C9 — pagination -/

/-- The ceiling division `(T + pp - 1) / pp` multiplied back by `pp`
covers `T`. -/
theorem le_ceil_div_mul (T pp : Nat) (h1 : 0 < pp) :
    T ≤ ((T + pp - 1) / pp) * pp := by
  by_contra hcon
  push_neg at hcon
  have h2 : ((T + pp - 1) / pp + 1) * pp ≤ T + pp - 1 := by
    rw [Nat.add_mul, Nat.one_mul]
    omega
  have h3 := (Nat.le_div_iff_mul_le h1).mpr h2
  omega

/-- C4, amended: with a positive page size (clamped from above at 1000;
the page number is clamped from below at 1), and provided the slice
offset `(page - 1) * per_page` does not wrap around u64, a page number
beyond `total_pages` makes the paginated query return an empty entries
list together with the correct `total` and `total_pages`, without
failing.  (Without the no-wrap proviso a sufficiently large page
number wraps the offset back into range and a release build returns a
non-empty page; see the counterexample.) -/
theorem C4_page_beyond (l : List Entry) (page0 pp0 : Nat) (hpp : 0 < pp0)
    (hbeyond : (l.length + min pp0 1000 - 1) / min pp0 1000 < max page0 1)
    (hnw : (max page0 1 - 1) * min pp0 1000 < 2 ^ 64) :
    paginate l page0 pp0
      = some ([], l.length, max page0 1,
          (l.length + min pp0 1000 - 1) / min pp0 1000) := by
  unfold paginate
  rw [if_neg (by omega : ¬ (min pp0 1000 = 0))]
  have hcover := le_ceil_div_mul l.length (min pp0 1000) (by omega)
  have hstart : l.length ≤ (max page0 1 - 1) * min pp0 1000 := by
    calc l.length ≤ ((l.length + min pp0 1000 - 1) / min pp0 1000) * min pp0 1000 :=
          hcover
      _ ≤ (max page0 1 - 1) * min pp0 1000 :=
          Nat.mul_le_mul_right _ (by omega)
  simp only []
  rw [Nat.mod_eq_of_lt hnw]
  rw [List.drop_eq_nil_of_le hstart]
  simp

/-- C4, counterexample to the claim as stated: at page `2^61 + 1` with
page size 1000 the usize offset `(page-1)*per_page = 125·2^64` wraps to
0, so a release build returns the first (non-empty) page instead of an
empty list, although the page number far exceeds `total_pages = 1`. -/
theorem C4_counterexample :
    paginate [sampleEntry] 2305843009213693953 1000
        = some ([sampleEntry], 1, 2305843009213693953, 1) ∧
    (1 : Nat) < 2305843009213693953 := by
  decide

/-- C4, witness: page 3 of a one-entry result with page size 2. -/
theorem C4_witness :
    paginate [sampleEntry] 3 2 = some ([], 1, 3, 1) :=
  C4_page_beyond [sampleEntry] 3 2 (by decide) (by decide) (by decide)

/-- C9: the page-size clamp `min(per_page, 1000)` only caps from above,
so a supplied page size of 0 passes unchanged and `total_pages`
computation divides by zero (a Rust panic, modelled as `none`); with
any positive page size pagination always produces a result. -/
theorem C9_zero_page_size (l : List Entry) (page0 : Nat) :
    min 0 1000 = 0 ∧
    paginate l page0 0 = none ∧
    (∀ pp0, 0 < pp0 → (paginate l page0 pp0).isSome) := by
  refine ⟨rfl, ?_, ?_⟩
  · unfold paginate
    simp
  · intro pp0 hpp
    unfold paginate
    rw [if_neg (by omega : ¬ (min pp0 1000 = 0))]
    rfl

/-- C9, witness: zero page size panics (`none`), page size 1 does not. -/
theorem C9_witness :
    paginate [sampleEntry] 1 0 = none ∧ (paginate [sampleEntry] 1 1).isSome :=
  ⟨(C9_zero_page_size [sampleEntry] 1).2.1,
   (C9_zero_page_size [sampleEntry] 1).2.2 1 (by decide)⟩

/-! ## Claim C7 — un-compilable regex criteria -/

/-- C7: a message or function regex criterion whose pattern does not
compile imposes no restriction — the filter output equals that of the
same specification with the criterion absent — and the query is not
rejected: with the session present and a positive page size, `get_logs`
returns a success response regardless of the regex criteria. -/
theorem C7_regex_leniency (compile : RegexCompiler) (f : LogFilter)
    (l : List Entry) (r : Str) :
    (f.message_regex = some r → compile r = none →
        filterEntries compile f l
          = filterEntries compile { f with message_regex := none } l) ∧
    (f.function_regex = some r → compile r = none →
        filterEntries compile f l
          = filterEntries compile { f with function_regex := none } l) ∧
    (∀ store entries, storeGet store f.session_id = some entries →
        0 < f.per_page →
        ∃ resp, get_logs compile store f = some (.ok resp)) := by
  refine ⟨?_, ?_, ?_⟩
  · intro hmr hc
    have htr : timeRangeFilter { f with message_regex := none } l
        = timeRangeFilter f l := rfl
    unfold filterEntries
    rw [htr]
    refine List.filter_congr (fun e _ => ?_)
    unfold entryMatches
    rw [hmr]
    simp [hc]
  · intro hfr hc
    have htr : timeRangeFilter { f with function_regex := none } l
        = timeRangeFilter f l := rfl
    unfold filterEntries
    rw [htr]
    refine List.filter_congr (fun e _ => ?_)
    unfold entryMatches
    rw [hfr]
    simp [hc]
  · intro store entries hse hpp
    unfold get_logs
    rw [hse]
    unfold paginate
    simp only []
    rw [if_neg (by omega : ¬ (min f.per_page 1000 = 0))]
    exact ⟨_, rfl⟩

/-- Regex oracle for the C7 witness: every pattern fails to compile. -/
def compileNone : RegexCompiler := fun _ => none

/-- Filter specification for the C7 witness: an un-compilable message
pattern. -/
def filterC7w : LogFilter :=
  { session_id := "s".data, message_regex := some "(".data }

/-- C7, witness: with the `"("` pattern failing to compile, filtering
equals filtering without the criterion, and the query still succeeds. -/
theorem C7_witness :
    filterEntries compileNone filterC7w [sampleEntry]
        = filterEntries compileNone { filterC7w with message_regex := none }
            [sampleEntry] ∧
    (∃ resp, get_logs compileNone [("s".data, [sampleEntry])] filterC7w
        = some (.ok resp)) :=
  ⟨(C7_regex_leniency compileNone filterC7w [sampleEntry] "(".data).1 rfl rfl,
   (C7_regex_leniency compileNone filterC7w [sampleEntry] "(".data).2.2
     [("s".data, [sampleEntry])] [sampleEntry] (by decide) (by decide)⟩

/-! ## Claim C8 — zero interval values -/

/-- C8: the interval grammar `\d+` admits 0, so `"0ms"` and `"0us"` are
accepted with value 0; with value 0 the bucket width is 0 in either
unit, and the grouping loop then divides by zero on its first entry
(a Rust panic, modelled as `none`) — aggregation is safe exactly under
the unstated precondition that the bucket width is positive (an empty
filtered set never reaches the division). -/
theorem C8_zero_interval (u : Bool) :
    parse_interval "0ms".data = .ok 0 ∧
    parse_interval "0us".data = .ok 0 ∧
    bucketDivisor u 0 = 0 ∧
    (∀ l : List Entry, ¬ l.isEmpty → timelineBuckets u 0 l = none) ∧
    timelineBuckets u 0 [] = some [] ∧
    (∀ interval_us l, 0 < bucketDivisor u interval_us →
        (timelineBuckets u interval_us l).isSome) := by
  have hdiv : bucketDivisor u 0 = 0 := by
    unfold bucketDivisor
    cases u <;> simp
  refine ⟨by decide, by decide, hdiv, ?_, ?_, ?_⟩
  · intro l hl
    unfold timelineBuckets
    rw [if_pos ⟨hl, hdiv⟩]
  · unfold timelineBuckets
    rw [if_neg (by simp)]
    cases u <;> rfl
  · intro ius l hpos
    unfold timelineBuckets
    rw [if_neg (fun hz => by omega)]
    rfl

/-- C8, witness: the divide-by-zero case on a non-empty list and the
safe case with a positive width. -/
theorem C8_witness :
    timelineBuckets true 0 [sampleEntry] = none ∧
    (timelineBuckets true 5 [sampleEntry]).isSome :=
  ⟨(C8_zero_interval true).2.2.2.1 [sampleEntry] (by decide),
   (C8_zero_interval true).2.2.2.2.2 5 [sampleEntry] (by decide)⟩

/-! ## Claim C3 — timeline bucketing -/

/-- The bucket list computed by `timelineBuckets` under a positive
bucket width: counts sum to the entry count, no zero counts, strictly
ascending bucket starts, and every entry's formula bucket start is
present. -/
theorem timelineBuckets_spec (u : Bool) (ius : Nat) (l : List Entry)
    (hd : 0 < bucketDivisor u ius) :
    ∃ B, timelineBuckets u ius l = some B ∧
      (B.map Prod.snd).sum = l.length ∧
      (∀ p ∈ B, 0 < p.2) ∧
      List.Pairwise (fun p q : Nat × Nat => p.1 < q.1) B ∧
      (∀ e ∈ l,
        minTimestamp u l
            + (timestampInUnit u e - minTimestamp u l) / bucketDivisor u ius
              * bucketDivisor u ius
          ∈ B.map Prod.fst) ∧
      (l = [] → minTimestamp u l = 0 ∧ maxTimestamp u l = 0) := by
  obtain ⟨B, hB, hBdef⟩ : ∃ B, timelineBuckets u ius l = some B ∧
      B = (List.insertionSort (· ≤ ·)
            (l.map (bucketTime u ius (minTimestamp u l))).dedup).map
          (fun k => (k, (l.map (bucketTime u ius (minTimestamp u l))).count k)) := by
    refine ⟨_, ?_, rfl⟩
    unfold timelineBuckets
    rw [if_neg (fun hz => by omega)]
  have hperm : List.Perm
      (List.insertionSort (· ≤ ·)
        (l.map (bucketTime u ius (minTimestamp u l))).dedup)
      ((l.map (bucketTime u ius (minTimestamp u l))).dedup) :=
    List.perm_insertionSort _ _
  have hfst : B.map Prod.fst
      = List.insertionSort (· ≤ ·)
          (l.map (bucketTime u ius (minTimestamp u l))).dedup := by
    rw [hBdef, List.map_map]
    have hcomp : (Prod.fst ∘ fun k : Nat =>
        (k, (l.map (bucketTime u ius (minTimestamp u l))).count k)) = id := rfl
    rw [hcomp, List.map_id]
  refine ⟨B, hB, ?_, ?_, ?_, ?_, ?_⟩
  · rw [hBdef, List.map_map]
    have hsum := (hperm.map
      (fun k => (l.map (bucketTime u ius (minTimestamp u l))).count k)).sum_eq
    calc ((List.insertionSort (· ≤ ·)
            (l.map (bucketTime u ius (minTimestamp u l))).dedup).map
          (Prod.snd ∘ fun k =>
            (k, (l.map (bucketTime u ius (minTimestamp u l))).count k))).sum
        = ((l.map (bucketTime u ius (minTimestamp u l))).dedup.map
            (fun k => (l.map (bucketTime u ius (minTimestamp u l))).count k)).sum :=
          hsum
      _ = (l.map (bucketTime u ius (minTimestamp u l))).length :=
          List.sum_map_count_dedup_eq_length _
      _ = l.length := List.length_map _ _
  · intro p hmem
    rw [hBdef] at hmem
    obtain ⟨k, hk, rfl⟩ := List.mem_map.mp hmem
    have hk1 : k ∈ (l.map (bucketTime u ius (minTimestamp u l))).dedup :=
      hperm.mem_iff.mp hk
    exact List.count_pos_iff.mpr (List.mem_dedup.mp hk1)
  · rw [hBdef]
    rw [List.pairwise_map]
    have hsorted := List.sorted_insertionSort (· ≤ ·)
      (l.map (bucketTime u ius (minTimestamp u l))).dedup
    have hnodup : (List.insertionSort (· ≤ ·)
        (l.map (bucketTime u ius (minTimestamp u l))).dedup).Nodup :=
      hperm.nodup_iff.mpr (List.nodup_dedup _)
    exact List.Sorted.lt_of_le hsorted hnodup
  · intro e he
    rw [hfst]
    have h1 : bucketTime u ius (minTimestamp u l) e
        ∈ l.map (bucketTime u ius (minTimestamp u l)) :=
      List.mem_map_of_mem _ he
    have h2 := hperm.mem_iff.mpr (List.mem_dedup.mpr h1)
    have h3 : minTimestamp u l
        + (timestampInUnit u e - minTimestamp u l) / bucketDivisor u ius
          * bucketDivisor u ius
        = bucketTime u ius (minTimestamp u l) e := by
      unfold bucketTime
      rw [Nat.add_comm]
    rw [h3]
    exact h2
  · intro hl
    subst hl
    exact ⟨rfl, rfl⟩

/-- C3, amended: for every filtered entry sequence and accepted
interval whose u64-normalized microsecond value yields a positive
bucket width in the selected unit (the normalization wraps modulo
2^64, so a positive stated value alone does not suffice; see the
counterexample), the timeline aggregation succeeds and the emitted
buckets satisfy: each entry is counted at bucket start
`min + floor((ts - min) / interval) * interval` in the selected unit,
the counts sum to the filtered entry count, no emitted bucket has count
zero, bucket starts are strictly ascending, and an empty filtered set
reports `min_timestamp = max_timestamp = 0`. -/
theorem C3_timeline (l : List Entry) (intv : Str) (ius : Nat)
    (hp : parse_interval intv = .ok ius)
    (hpos : 0 < bucketDivisor (ends_with_us intv) ius) :
    ∃ B, timelineBuckets (ends_with_us intv) ius l = some B ∧
      (B.map Prod.snd).sum = l.length ∧
      (∀ p ∈ B, 0 < p.2) ∧
      List.Pairwise (fun p q : Nat × Nat => p.1 < q.1) B ∧
      (∀ e ∈ l,
        minTimestamp (ends_with_us intv) l
            + (timestampInUnit (ends_with_us intv) e
                - minTimestamp (ends_with_us intv) l)
              / bucketDivisor (ends_with_us intv) ius
              * bucketDivisor (ends_with_us intv) ius
          ∈ B.map Prod.fst) ∧
      (l = [] → minTimestamp (ends_with_us intv) l = 0
        ∧ maxTimestamp (ends_with_us intv) l = 0) :=
  timelineBuckets_spec (ends_with_us intv) ius l hpos

/-- C3, counterexample to the claim as stated: the accepted interval
`"76480200929599801s"` has positive stated value, but the u64
normalization `value * 1_000_000` wraps modulo 2^64 to 64 µs, a
positive normalized value whose millisecond-path bucket width
`64 / 1000` is 0 — the grouping loop then divides by zero on a
non-empty filtered set (a panic, modelled as `none`) instead of
emitting buckets. -/
theorem C3_counterexample :
    parse_interval "76480200929599801s".data = .ok 64 ∧
    (0 : Nat) < 64 ∧
    timelineBuckets (ends_with_us "76480200929599801s".data) 64 [sampleEntry]
      = none := by
  decide

/-- C3, witness: the aggregation properties at a concrete one-entry
sequence with interval `"1s"`. -/
theorem C3_witness :
    ∃ B, timelineBuckets (ends_with_us "1s".data) 1000000 [sampleEntry] = some B ∧
      (B.map Prod.snd).sum = 1 ∧
      (∀ p ∈ B, 0 < p.2) ∧
      List.Pairwise (fun p q : Nat × Nat => p.1 < q.1) B ∧
      (∀ e ∈ [sampleEntry],
        minTimestamp (ends_with_us "1s".data) [sampleEntry]
            + (timestampInUnit (ends_with_us "1s".data) e
                - minTimestamp (ends_with_us "1s".data) [sampleEntry])
              / bucketDivisor (ends_with_us "1s".data) 1000000
              * bucketDivisor (ends_with_us "1s".data) 1000000
          ∈ B.map Prod.fst) ∧
      (([sampleEntry] : List Entry) = [] →
        minTimestamp (ends_with_us "1s".data) [sampleEntry] = 0
        ∧ maxTimestamp (ends_with_us "1s".data) [sampleEntry] = 0) :=
  C3_timeline [sampleEntry] "1s".data 1000000 (by decide) (by decide)

/-! ## Claim C10 — present-but-empty sessions in the options endpoint -/

/-- C10: the filter-options discovery query rejects a session that is
present in the store with an empty entry sequence with a 404 NOT_FOUND
error rather than returning empty option lists, the same status an
absent session receives — at the status level the two cases are
indistinguishable (the human-readable messages differ, but both are
`NOT_FOUND` rejections and neither is a success). -/
theorem C10_empty_session (store : List (Str × List Entry)) (sid : Str) :
    (storeGet store sid = some [] →
        apiStatus (get_filter_options store sid) = some 404) ∧
    (storeGet store sid = none →
        apiStatus (get_filter_options store sid) = some 404) ∧
    (∀ store2 sid2, storeGet store sid = some [] →
        storeGet store2 sid2 = none →
        apiStatus (get_filter_options store sid)
          = apiStatus (get_filter_options store2 sid2)) := by
  have hempty : storeGet store sid = some [] →
      apiStatus (get_filter_options store sid) = some 404 := by
    intro h
    unfold get_filter_options
    rw [h]
    rfl
  have habsent : ∀ (st : List (Str × List Entry)) (si : Str),
      storeGet st si = none → apiStatus (get_filter_options st si) = some 404 := by
    intro st si h
    unfold get_filter_options
    rw [h]
    rfl
  refine ⟨hempty, habsent store sid, ?_⟩
  intro store2 sid2 h1 h2
  rw [hempty h1, habsent store2 sid2 h2]

/-- C10, witness: a concrete store holding an empty session versus an
absent session — both rejected with status 404. -/
theorem C10_witness :
    apiStatus (get_filter_options [("a".data, [])] "a".data) = some 404 ∧
    apiStatus (get_filter_options [("a".data, [])] "b".data) = some 404 :=
  ⟨(C10_empty_session [("a".data, [])] "a".data).1 (by decide),
   (C10_empty_session [("a".data, [])] "b".data).2.1 (by decide)⟩

end GstLogViewer
